import Mathlib

/-!
Verification of the aggregation core of `collectionstats.py`.

The file embeds, as executable Lean definitions, the pieces of the program
that carry logic: the javascript MAP function regular-expression parse and
exclusion filter, the REDUCE summation, the driver-side grouping that feeds
`parse_results`, the `parse_results` merge loop, and the rate normalisation
performed by `print_table`.  Python dicts are modelled as insertion-ordered
association lists; Python floats are modelled as exact rationals; Python
exceptions are modelled with an explicit result type.
-/

/-- JS `\w` (ASCII word character: letter, digit or underscore), as used in
the MAP regular expression. -/
def isWordChar (c : Char) : Bool := c.isAlphanum || c == '_'

/-- JS `\s`, restricted to the ASCII whitespace characters. -/
def isSpaceChar (c : Char) : Bool :=
  c == ' ' || c == '\t' || c == '\n' || c == '\r' || c == '\x0b' || c == '\x0c'

/-- Character class `[\w\-]`: the database-name characters in the MAP regex. -/
def isDbChar (c : Char) : Bool := isWordChar c || c == '-'

/-- Character class `[\w\-\.\$]`: the collection-name characters in the MAP
regex. -/
def isCollChar (c : Char) : Bool :=
  isWordChar c || c == '-' || c == '.' || c == '$'

/-- The match of the MAP regex `/^(\w+)+\s+([\w\-]+)\.([\w\-\.\$]+)/` against
an `info` string (src/collectionstats.py, line 32), returning the three
captured groups (type, database, collection) on success.

The regex is anchored at the start and each quantified class is disjoint from
the character that must follow it (`\w` from `\s`, `\s` from `[\w\-]`,
`[\w\-]` from `.` — a dot is not a database character), so backtracking never
produces a match that the greedy maximal runs miss; the nested `(\w+)+`
likewise captures exactly the maximal word run.  The match is therefore the
sequence of maximal runs computed here. -/
def matchInfo (info : String) : Option (String × String × String) :=
  let cs := info.toList
  let ty := cs.takeWhile isWordChar
  let r1 := cs.dropWhile isWordChar
  if ty.isEmpty then none else
  let sp := r1.takeWhile isSpaceChar
  let r2 := r1.dropWhile isSpaceChar
  if sp.isEmpty then none else
  let db := r2.takeWhile isDbChar
  let r3 := r2.dropWhile isDbChar
  if db.isEmpty then none else
  match r3 with
  | '.' :: r4 =>
    let coll := r4.takeWhile isCollChar
    if coll.isEmpty then none
    else some (String.mk ty, String.mk db, String.mk coll)
  | _ => none

/-- The body of MAP (src/collectionstats.py, lines 33-44): on a regex match
(`matches.length === 4` always holds when the three-group regex matches),
emit the key (collection, type) unless the collection is `$cmd` or the
database is `tmp` or `system`. -/
def extractKey (info : String) : Option (String × String) :=
  match matchInfo info with
  | none => none
  | some (ty, db, coll) =>
    if coll != "$cmd" && db != "tmp" && db != "system" then some (coll, ty)
    else none

/-- Python dict lookup on an insertion-ordered association list. -/
def alookup {α : Type} : List (String × α) → String → Option α
  | [], _ => none
  | (k, v) :: rest, k0 => if k = k0 then some v else alookup rest k0

/-- Python dict write `d[k] = v` (also `d.setdefault(k, v)` for a missing
key): overwrite the value in place if `k` is present, otherwise append the
new key at the end, preserving insertion order. -/
def aupdate {α : Type} : List (String × α) → String → α → List (String × α)
  | [], k, v => [(k, v)]
  | (k0, v0) :: rest, k, v =>
    if k0 = k then (k, v) :: rest else (k0, v0) :: aupdate rest k v

/-- OpCounts dict of `parse_results`: operation type to count. -/
abbrev OpCounts := List (String × Nat)

/-- Outer dict of `parse_results`: collection to inner dict. -/
abbrev CountsDict := List (String × OpCounts)

/-- One iteration of the `parse_results` loop (src/collectionstats.py,
lines 108-119).  A map/reduce document is modelled as
((collection, type), count): `doc._id.collection = doc.1.1`,
`doc._id.type = doc.1.2`, `doc.value.count = doc.2`. -/
def parseStep (results : CountsDict) (doc : (String × String) × Nat) :
    CountsDict :=
  match alookup results doc.1.1 with
  | none => aupdate results doc.1.1 [(doc.1.2, doc.2)]
  | some v =>
    match alookup v doc.1.2 with
    | none => aupdate results doc.1.1 (aupdate v doc.1.2 doc.2)
    | some old => aupdate results doc.1.1 (aupdate v doc.1.2 (old + doc.2))

/-- `parse_results` (src/collectionstats.py, lines 93-120): fold the loop
body over the map/reduce documents, starting from the empty dict. -/
def parse_results (mr_data : List ((String × String) × Nat)) : CountsDict :=
  mr_data.foldl parseStep []

/-- The MAP phase over a list of profile-entry `info` strings: one emitted
pair (key, count 1) per entry accepted by `extractKey`. -/
def mapEmits (entries : List String) : List ((String × String) × Nat) :=
  entries.filterMap (fun e => (extractKey e).map (fun k => (k, 1)))

/-- REDUCE (src/collectionstats.py, lines 47-53): the summation of the
emitted counts for one key, here written as the sum over a whole emission
list of the counts carrying key `k`. -/
def sumKey (k : String × String) : List ((String × String) × Nat) → Nat
  | [] => 0
  | d :: ds => (if d.1 = k then d.2 else 0) + sumKey k ds

/-- Modelled from the spec: the driver-side `inline_map_reduce` execution
(an external collaborator, src/collectionstats.py line 195) groups the MAP
emissions by key and reduces every group with REDUCE summation, producing
one document per distinct emitted key. -/
def mapReduce (entries : List String) : List ((String × String) × Nat) :=
  ((mapEmits entries).map Prod.fst).dedup.map
    (fun k => (k, sumKey k (mapEmits entries)))

/-- The whole aggregation pass (spec operation `Aggregate`): map/reduce the
raw entries, then merge with `parse_results`. -/
def aggregate (entries : List String) : CountsDict :=
  parse_results (mapReduce entries)

/-- Number of input entries whose extracted key is `k`. -/
def keyCount (entries : List String) (k : String × String) : Nat :=
  entries.countP (fun e => extractKey e == some k)

/-- Nested dict lookup `counts[c][t]`. -/
def lookup2 (d : CountsDict) (c t : String) : Option Nat :=
  (alookup d c).bind (fun v => alookup v t)

/-- Whether a map/reduce document list contains key `k`. -/
def hasKey (docs : List ((String × String) × Nat)) (k : String × String) :
    Bool :=
  docs.any (fun d => d.1 == k)

/-- Whether entry `e` extracts to collection `c` (with any operation type). -/
def collMatches (e : String) (c : String) : Bool :=
  match extractKey e with
  | some p => p.1 == c
  | none => false

/-- The one Python exception the rate loop can raise. -/
inductive PyErr where
  | zeroDivisionError
deriving DecidableEq

/-- Result of a Python computation that may raise. -/
inductive PyResult (α : Type) where
  | ok (val : α)
  | error (e : PyErr)
deriving DecidableEq

/-- Python float division, raising ZeroDivisionError on a zero divisor
(floats modelled as exact rationals). -/
def pyDiv (a b : ℚ) : PyResult ℚ :=
  if b = 0 then .error .zeroDivisionError else .ok (a / b)

/-- `v.setdefault(t, 0)` followed by `v[t]` (src/collectionstats.py,
lines 141-145): the stored count, defaulting to 0. -/
def getCount (v : OpCounts) (t : String) : Nat := (alookup v t).getD 0

/-- The five canonical operation types, in the column order of the table
header (src/collectionstats.py, lines 136-137). -/
def canonicalTypes : List String :=
  ["query", "insert", "getmore", "update", "remove"]

/-- The five divisions of one table row (src/collectionstats.py,
lines 146-148), performed in source order and keyed by the corresponding
column operation type. -/
def rowRates (v : OpCounts) (norm : ℚ) : PyResult (List (String × ℚ)) :=
  match pyDiv (getCount v "query" : ℚ) norm with
  | .error e => .error e
  | .ok q =>
    match pyDiv (getCount v "insert" : ℚ) norm with
    | .error e => .error e
    | .ok ins =>
      match pyDiv (getCount v "getmore" : ℚ) norm with
      | .error e => .error e
      | .ok g =>
        match pyDiv (getCount v "update" : ℚ) norm with
        | .error e => .error e
        | .ok u =>
          match pyDiv (getCount v "remove" : ℚ) norm with
          | .error e => .error e
          | .ok r =>
            .ok [("query", q), ("insert", ins), ("getmore", g),
                 ("update", u), ("remove", r)]

/-- Rates output: one keyed row per collection. -/
abbrev RatesList := List (String × List (String × ℚ))

/-- The row loop of `print_table` over an already-parsed counts dict. -/
def toRatesAux (norm : ℚ) : CountsDict → PyResult RatesList
  | [] => .ok []
  | (c, v) :: rest =>
    match rowRates v norm with
    | .error e => .error e
    | .ok row =>
      match toRatesAux norm rest with
      | .error e => .error e
      | .ok restRows => .ok ((c, row) :: restRows)

/-- ToRates as realised by `print_table` (src/collectionstats.py,
lines 123-150): `norm = float(time_interval)` — the CLI interval is an int —
then one row of five divisions per collection of the counts dict. -/
def toRates (counts : CountsDict) (time_interval : Int) : PyResult RatesList :=
  toRatesAux ((time_interval : ℚ)) counts

/-- Whether a Python computation succeeded. -/
def isOkB {α : Type} : PyResult α → Bool
  | .ok _ => true
  | .error _ => false

/-- The five normalized rates of the ToRates of the spec, written from the spec
words: for every collection and each of the five canonical operation types,
rate = count.get(opType, 0) / intervalSeconds.  Compared below with the
behaviour of `toRates` as embedded from `print_table`. -/
def specRates (counts : CountsDict) (time_interval : Int) : RatesList :=
  counts.map (fun p =>
    (p.1, canonicalTypes.map
      (fun t => (t, (getCount p.2 t : ℚ) / (time_interval : ℚ)))))

/-! ### Association-list (Python dict) lemmas -/

theorem alookup_aupdate {α : Type} (l : List (String × α)) (k k0 : String)
    (v : α) :
    alookup (aupdate l k v) k0 = if k = k0 then some v else alookup l k0 := by
  induction l with
  | nil => by_cases h : k = k0 <;> simp [aupdate, alookup, h]
  | cons p rest ih =>
    obtain ⟨k1, v1⟩ := p
    by_cases h1 : k1 = k
    · subst h1
      by_cases h2 : k1 = k0 <;> simp [aupdate, alookup, h2]
    · by_cases h2 : k1 = k0 <;> by_cases h3 : k = k0 <;>
        simp_all [aupdate, alookup]

theorem isSome_alookup_aupdate {α : Type} (l : List (String × α))
    (k k0 : String) (v : α) :
    (alookup (aupdate l k v) k0).isSome =
      ((k == k0) || (alookup l k0).isSome) := by
  rw [alookup_aupdate]
  by_cases h : k = k0 <;> simp [h]

/-! ### parse_results characterisation -/

theorem lookup2_parseStep (acc : CountsDict) (d : (String × String) × Nat)
    (c t : String) :
    lookup2 (parseStep acc d) c t =
      if d.1 = (c, t) then some ((lookup2 acc c t).getD 0 + d.2)
      else lookup2 acc c t := by
  obtain ⟨⟨c1, t1⟩, val⟩ := d
  by_cases hc : c1 = c
  · subst hc
    by_cases ht : t1 = t
    · subst ht
      simp only [parseStep, lookup2, Prod.mk.injEq, and_self, if_true]
      cases h1 : alookup acc c1 with
      | none => simp [alookup_aupdate, h1, alookup]
      | some v =>
        cases h2 : alookup v t1 with
        | none => simp [alookup_aupdate, h1, h2, alookup_aupdate]
        | some old => simp [alookup_aupdate, h1, h2, alookup_aupdate]
    · simp only [parseStep, lookup2, Prod.mk.injEq, and_true, ht,
        and_false, if_false]
      cases h1 : alookup acc c1 with
      | none => simp [alookup_aupdate, h1, alookup, ht]
      | some v =>
        cases h2 : alookup v t1 with
        | none => simp [alookup_aupdate, h1, h2, ht]
        | some old => simp [alookup_aupdate, h1, h2, ht]
  · have hne : ((c1, t1) = (c, t)) = False := by
      simp [Prod.mk.injEq, hc]
    simp only [parseStep, lookup2, hne, if_false]
    cases h1 : alookup acc c1 with
    | none => simp [alookup_aupdate, hc]
    | some v =>
      cases h2 : alookup v t1 with
      | none => simp [alookup_aupdate, hc, h2]
      | some old => simp [alookup_aupdate, hc, h2]

theorem lookup2_foldl_parseStep (docs : List ((String × String) × Nat))
    (acc : CountsDict) (c t : String) :
    lookup2 (docs.foldl parseStep acc) c t =
      match lookup2 acc c t with
      | some old => some (old + sumKey (c, t) docs)
      | none =>
        if hasKey docs (c, t) then some (sumKey (c, t) docs) else none := by
  induction docs generalizing acc with
  | nil =>
    cases h : lookup2 acc c t <;> simp [sumKey, hasKey, h]
  | cons d ds ih =>
    rw [List.foldl_cons, ih, lookup2_parseStep]
    by_cases hd : d.1 = (c, t)
    · simp only [hd, if_true]
      cases h : lookup2 acc c t with
      | none =>
        simp [sumKey, hasKey, hd, Nat.add_comm, Nat.add_assoc]
      | some old =>
        simp [sumKey, hasKey, hd, Nat.add_comm, Nat.add_assoc,
          Nat.add_left_comm]
    · have hb : (d.1 == (c, t)) = false := beq_eq_false_iff_ne.mpr hd
      cases h : lookup2 acc c t with
      | none =>
        simp [sumKey, hasKey, hd, List.any_cons, h]
        rw [hb, Bool.false_or]
      | some old =>
        simp [sumKey, hasKey, hd, List.any_cons, h]

theorem isSome_alookup_parseStep (acc : CountsDict)
    (d : (String × String) × Nat) (c : String) :
    (alookup (parseStep acc d) c).isSome =
      ((d.1.1 == c) || (alookup acc c).isSome) := by
  obtain ⟨⟨c1, t1⟩, val⟩ := d
  simp only [parseStep]
  cases h1 : alookup acc c1 with
  | none => simp [isSome_alookup_aupdate]
  | some v =>
    cases h2 : alookup v t1 with
    | none => simp [isSome_alookup_aupdate, h2]
    | some old => simp [isSome_alookup_aupdate, h2]

theorem isSome_alookup_foldl (docs : List ((String × String) × Nat))
    (acc : CountsDict) (c : String) :
    (alookup (docs.foldl parseStep acc) c).isSome =
      ((alookup acc c).isSome || docs.any (fun d => d.1.1 == c)) := by
  induction docs generalizing acc with
  | nil => simp
  | cons d ds ih =>
    rw [List.foldl_cons, ih, isSome_alookup_parseStep, List.any_cons]
    cases hb : (d.1.1 == c) <;> simp [hb]

/-! ### Map/reduce chain lemmas -/

theorem sumKey_mapEmits (entries : List String) (k : String × String) :
    sumKey k (mapEmits entries) = keyCount entries k := by
  induction entries with
  | nil => rfl
  | cons e es ih =>
    cases hx : extractKey e with
    | none =>
      simpa [mapEmits, List.filterMap_cons, hx, keyCount,
        List.countP_cons] using ih
    | some k2 =>
      have hme : mapEmits (e :: es) = (k2, 1) :: mapEmits es := by
        simp [mapEmits, List.filterMap_cons, hx]
      have hkc : keyCount (e :: es) k =
          keyCount es k + (if k2 = k then 1 else 0) := by
        simp [keyCount, List.countP_cons, hx]
      rw [hme, hkc]
      by_cases hk : k2 = k
      · subst hk
        simp [sumKey, ih, Nat.add_comm]
      · simp [sumKey, hk, ih]

theorem mem_emitKeys_iff (entries : List String) (k : String × String) :
    k ∈ (mapEmits entries).map Prod.fst ↔ 0 < keyCount entries k := by
  induction entries with
  | nil => simp [mapEmits, keyCount]
  | cons e es ih =>
    cases hx : extractKey e with
    | none =>
      have hme : mapEmits (e :: es) = mapEmits es := by
        simp [mapEmits, List.filterMap_cons, hx]
      have hkc : keyCount (e :: es) k = keyCount es k := by
        simp [keyCount, List.countP_cons, hx]
      rw [hme, hkc]
      exact ih
    | some k2 =>
      have hme : mapEmits (e :: es) = (k2, 1) :: mapEmits es := by
        simp [mapEmits, List.filterMap_cons, hx]
      have hkc : keyCount (e :: es) k =
          keyCount es k + (if k2 = k then 1 else 0) := by
        simp [keyCount, List.countP_cons, hx]
      rw [hme, hkc]
      by_cases hk : k2 = k
      · subst hk
        simp
      · have hkk : ¬ k = k2 := fun h => hk h.symm
        simp [hk, hkk, ih]

theorem sumKey_nodup_map (l : List (String × String))
    (f : String × String → Nat) (k : String × String) (h : l.Nodup) :
    sumKey k (l.map fun x => (x, f x)) = if k ∈ l then f k else 0 := by
  induction l with
  | nil => simp [sumKey]
  | cons a l ih =>
    have h2 := List.nodup_cons.mp h
    by_cases ha : a = k
    · subst ha
      simp [sumKey, List.mem_cons, h2.1, ih h2.2]
    · have hka : ¬ k = a := fun hh => ha hh.symm
      simp [sumKey, List.mem_cons, ha, hka, ih h2.2]

theorem dedup_any {α : Type} [DecidableEq α] (l : List α) (p : α → Bool) :
    l.dedup.any p = l.any p := by
  cases ha : l.any p with
  | true =>
    obtain ⟨x, hx, hpx⟩ := List.any_eq_true.mp ha
    exact List.any_eq_true.mpr ⟨x, List.mem_dedup.mpr hx, hpx⟩
  | false =>
    cases hd : l.dedup.any p with
    | false => rfl
    | true =>
      obtain ⟨x, hx, hpx⟩ := List.any_eq_true.mp hd
      have h2 := List.any_eq_true.mpr ⟨x, List.mem_dedup.mp hx, hpx⟩
      rw [ha] at h2
      exact Bool.noConfusion h2

theorem any_map_comp {α β : Type} (l : List α) (f : α → β) (p : β → Bool) :
    (l.map f).any p = l.any (fun x => p (f x)) := by
  induction l with
  | nil => rfl
  | cons a l ih => simp [List.any_cons, ih]

theorem hasKey_mapReduce (entries : List String) (k : String × String) :
    hasKey (mapReduce entries) k =
      ((mapEmits entries).map Prod.fst).any (fun x => x == k) := by
  unfold hasKey mapReduce
  rw [any_map_comp, dedup_any]

theorem sumKey_mapReduce (entries : List String) (k : String × String)
    (hmem : k ∈ (mapEmits entries).map Prod.fst) :
    sumKey k (mapReduce entries) = keyCount entries k := by
  unfold mapReduce
  rw [sumKey_nodup_map _ _ _ (List.nodup_dedup _),
    if_pos (List.mem_dedup.mpr hmem), sumKey_mapEmits]

/-! ### Characterisation of `aggregate` -/

theorem lookup2_aggregate (entries : List String) (c t : String) :
    lookup2 (aggregate entries) c t =
      if 0 < keyCount entries (c, t) then some (keyCount entries (c, t))
      else none := by
  have hfold := lookup2_foldl_parseStep (mapReduce entries) [] c t
  have hbase : lookup2 ([] : CountsDict) c t = none := rfl
  rw [hbase] at hfold
  show lookup2 ((mapReduce entries).foldl parseStep []) c t = _
  rw [hfold]
  by_cases hk : 0 < keyCount entries (c, t)
  · have hmem : (c, t) ∈ (mapEmits entries).map Prod.fst :=
      (mem_emitKeys_iff entries (c, t)).mpr hk
    have h1 : hasKey (mapReduce entries) (c, t) = true := by
      rw [hasKey_mapReduce]
      simpa using hmem
    rw [if_pos h1, if_pos hk, sumKey_mapReduce entries (c, t) hmem]
  · have hmem : (c, t) ∉ (mapEmits entries).map Prod.fst :=
      fun hmem => hk ((mem_emitKeys_iff entries (c, t)).mp hmem)
    have h1 : hasKey (mapReduce entries) (c, t) = false := by
      rw [hasKey_mapReduce]
      refine List.any_eq_false.mpr ?_
      intro x hx hbeq
      have hxk : x = (c, t) := by simpa using hbeq
      exact hmem (hxk ▸ hx)
    rw [if_neg hk, if_neg ?_]
    rw [h1]
    exact Bool.false_ne_true

theorem emitKeys_any_coll (entries : List String) (c : String) :
    ((mapEmits entries).map Prod.fst).any (fun x => x.1 == c) =
      entries.any (fun e => collMatches e c) := by
  induction entries with
  | nil => rfl
  | cons e es ih =>
    cases hx : extractKey e with
    | none =>
      have hme : mapEmits (e :: es) = mapEmits es := by
        simp [mapEmits, List.filterMap_cons, hx]
      have hcm : collMatches e c = false := by simp [collMatches, hx]
      rw [hme, ih, List.any_cons, hcm, Bool.false_or]
    | some k2 =>
      have hme : mapEmits (e :: es) = (k2, 1) :: mapEmits es := by
        simp [mapEmits, List.filterMap_cons, hx]
      have hcm : collMatches e c = (k2.1 == c) := by simp [collMatches, hx]
      rw [hme, List.map_cons, List.any_cons, ih, List.any_cons, hcm]

theorem isSome_aggregate (entries : List String) (c : String) :
    (alookup (aggregate entries) c).isSome =
      entries.any (fun e => collMatches e c) := by
  have hfold := isSome_alookup_foldl (mapReduce entries) [] c
  show (alookup ((mapReduce entries).foldl parseStep []) c).isSome = _
  rw [hfold]
  have h0 : (alookup ([] : CountsDict) c).isSome = false := rfl
  rw [h0, Bool.false_or]
  have hmr : (mapReduce entries).any (fun d => d.1.1 == c) =
      ((mapEmits entries).map Prod.fst).any (fun x => x.1 == c) := by
    unfold mapReduce
    rw [any_map_comp, dedup_any]
  rw [hmr, emitKeys_any_coll]

/-! ### Rate-normalisation lemmas -/

theorem rowRates_ok (v : OpCounts) (norm : ℚ) (h : norm ≠ 0) :
    rowRates v norm =
      .ok (canonicalTypes.map (fun t => (t, (getCount v t : ℚ) / norm))) := by
  simp [rowRates, pyDiv, h, canonicalTypes]

theorem rowRates_zero (v : OpCounts) :
    rowRates v 0 = .error PyErr.zeroDivisionError := by
  simp [rowRates, pyDiv]

theorem rowRates_keys (v : OpCounts) (norm : ℚ) (row : List (String × ℚ))
    (h : rowRates v norm = .ok row) : row.map Prod.fst = canonicalTypes := by
  by_cases h0 : norm = 0
  · subst h0
    rw [rowRates_zero] at h
    exact PyResult.noConfusion h
  · rw [rowRates_ok v norm h0] at h
    cases h
    simp [canonicalTypes]

theorem toRatesAux_ok (counts : CountsDict) (norm : ℚ) (h : norm ≠ 0) :
    toRatesAux norm counts =
      .ok (counts.map (fun p =>
        (p.1, canonicalTypes.map
          (fun t => (t, (getCount p.2 t : ℚ) / norm))))) := by
  induction counts with
  | nil => rfl
  | cons p rest ih =>
    obtain ⟨c, v⟩ := p
    simp [toRatesAux, rowRates_ok v norm h, ih]

theorem toRatesAux_keys (norm : ℚ) (counts : CountsDict) (out : RatesList)
    (p : String × List (String × ℚ)) (h : toRatesAux norm counts = .ok out)
    (hp : p ∈ out) : p.2.map Prod.fst = canonicalTypes := by
  induction counts generalizing out with
  | nil =>
    cases h
    simp at hp
  | cons q rest ih =>
    obtain ⟨c, v⟩ := q
    simp only [toRatesAux] at h
    cases hr : rowRates v norm with
    | error e =>
      rw [hr] at h
      exact PyResult.noConfusion h
    | ok row =>
      rw [hr] at h
      cases ha : toRatesAux norm rest with
      | error e =>
        rw [ha] at h
        exact PyResult.noConfusion h
      | ok rr =>
        rw [ha] at h
        cases h
        rcases List.mem_cons.mp hp with hp1 | hp1
        · subst hp1
          exact rowRates_keys v norm row hr
        · exact ih rr ha hp1

/-! ### Leading whitespace rejection -/

theorem isSpaceChar_not_word (c : Char) (h : isSpaceChar c = true) :
    isWordChar c = false := by
  simp only [isSpaceChar, Bool.or_eq_true, beq_iff_eq] at h
  rcases h with ((((h1 | h1) | h1) | h1) | h1) | h1 <;> subst h1 <;> rfl

/-! ### Claim theorems -/

/-- C6: ExtractKey on "query test.foo.bar ntoreturn:0" yields the
OperationKey with collection "foo.bar" and opType "query": the collection
keeps its internal dot, the database prefix "test" is stripped, and the
trailing text is ignored. -/
theorem extractKey_dotted_collection :
    extractKey "query test.foo.bar ntoreturn:0" =
      some ("foo.bar", "query") := by decide

/-- C4: whenever the MAP regex parses an info string into a type, a database
and a collection, and the collection is the literal `$cmd` or the database is
`tmp` or `system`, the entry is discarded: extractKey returns none. -/
theorem extractKey_excluded_none (info ty db coll : String)
    (h : matchInfo info = some (ty, db, coll))
    (hex : coll = "$cmd" ∨ db = "tmp" ∨ db = "system") :
    extractKey info = none := by
  unfold extractKey
  rw [h]
  rcases hex with h1 | h1 | h1 <;> subst h1 <;> simp

/-- Witness for C4 at the concrete inputs of the spec: "insert tmp.users"
(excluded database tmp), "update system.indexes" (excluded database system)
and "command test.$cmd count" (excluded collection $cmd) all yield none. -/
theorem extractKey_excluded_none_witness :
    extractKey "insert tmp.users" = none ∧
    extractKey "update system.indexes" = none ∧
    extractKey "command test.$cmd count" = none :=
  ⟨extractKey_excluded_none "insert tmp.users" "insert" "tmp" "users"
      (by decide) (Or.inr (Or.inl rfl)),
   extractKey_excluded_none "update system.indexes" "update" "system"
      "indexes" (by decide) (Or.inr (Or.inr rfl)),
   extractKey_excluded_none "command test.$cmd count" "command" "test"
      "$cmd" (by decide) (Or.inl rfl)⟩

/-- C10: the exclusion filters compare by exact full-string equality only:
whenever the MAP regex parses an info string and the parsed names are not
exactly `$cmd` / `tmp` / `system`, the entry is kept and counted under the
parsed collection and verb — extensions of an excluded name pass through. -/
theorem extractKey_exact_exclusion_only (info ty db coll : String)
    (h : matchInfo info = some (ty, db, coll))
    (h1 : coll ≠ "$cmd") (h2 : db ≠ "tmp") (h3 : db ≠ "system") :
    extractKey info = some (coll, ty) := by
  unfold extractKey
  rw [h]
  simp [h1, h2, h3]

/-- Witness for C10: database "system2" (an extension of "system"),
database "tmp-cache" (an extension of "tmp") and collection "foo.$cmd" (an
extension of "$cmd") are all kept. -/
theorem extractKey_exact_exclusion_only_witness :
    extractKey "insert system2.users x" = some ("users", "insert") ∧
    extractKey "insert tmp-cache.users x" = some ("users", "insert") ∧
    extractKey "query test.foo.$cmd x" = some ("foo.$cmd", "query") :=
  ⟨extractKey_exact_exclusion_only "insert system2.users x" "insert"
      "system2" "users" (by decide) (by decide) (by decide) (by decide),
   extractKey_exact_exclusion_only "insert tmp-cache.users x" "insert"
      "tmp-cache" "users" (by decide) (by decide) (by decide) (by decide),
   extractKey_exact_exclusion_only "query test.foo.$cmd x" "query" "test"
      "foo.$cmd" (by decide) (by decide) (by decide) (by decide)⟩

/-- C3 counterexample: the MAP regex is anchored at the start of the string
with no leading `\s*`, so an info string with leading whitespace does NOT
yield the same OperationKey as the stripped string — it yields none while
the stripped string yields a key, refuting the claim that the pattern
tolerates optional leading whitespace. -/
theorem extractKey_leading_whitespace_cex :
    extractKey " query test.foo.bar ntoreturn:0" = none ∧
    extractKey "query test.foo.bar ntoreturn:0" =
      some ("foo.bar", "query") :=
  ⟨by decide, by decide⟩

/-- C3 amended: the regex `/^(\w+)+\s+.../` is anchored and its first
character class is `\w`, which no whitespace character satisfies, so every
info string that starts with a whitespace character is rejected
(extractKey returns none). -/
theorem extractKey_leading_whitespace_noMatch (c : Char) (cs : List Char)
    (h : isSpaceChar c = true) :
    extractKey (String.mk (c :: cs)) = none := by
  have hw : isWordChar c = false := isSpaceChar_not_word c h
  have htl : (String.mk (c :: cs)).toList = c :: cs := rfl
  simp [extractKey, matchInfo, htl, List.takeWhile_cons, hw]

/-- Witness for the amended C3 at the concrete input of the counterexample:
" query test.foo.bar ntoreturn:0" (with one leading blank) yields none. -/
theorem extractKey_leading_whitespace_noMatch_witness :
    extractKey " query test.foo.bar ntoreturn:0" = none :=
  extractKey_leading_whitespace_noMatch ' '
    "query test.foo.bar ntoreturn:0".toList (by decide)

/-- C7: Aggregate is order-independent: for any two lists of entries that are
permutations of each other, the resulting mappings compare equal as Python
dicts — the same collections are present and every nested count coincides. -/
theorem aggregate_perm_invariant (l1 l2 : List String) (h : l1.Perm l2)
    (c t : String) :
    (alookup (aggregate l1) c).isSome = (alookup (aggregate l2) c).isSome ∧
    lookup2 (aggregate l1) c t = lookup2 (aggregate l2) c t := by
  constructor
  · rw [isSome_aggregate, isSome_aggregate]
    cases hb : l2.any (fun e => collMatches e c) with
    | true =>
      obtain ⟨x, hx, hp⟩ := List.any_eq_true.mp hb
      exact List.any_eq_true.mpr ⟨x, h.mem_iff.mpr hx, hp⟩
    | false =>
      refine List.any_eq_false.mpr ?_
      intro x hx
      exact List.any_eq_false.mp hb x (h.mem_iff.mp hx)
  · rw [lookup2_aggregate, lookup2_aggregate]
    have hcnt : keyCount l1 (c, t) = keyCount l2 (c, t) := by
      unfold keyCount
      exact h.countP_eq _
    rw [hcnt]

/-- Witness for C7: swapping two distinct entries leaves the aggregate
unchanged at the key ("a", "query"). -/
theorem aggregate_perm_invariant_witness :
    (alookup (aggregate ["query test.a x", "insert test.b y"]) "a").isSome =
      (alookup (aggregate ["insert test.b y", "query test.a x"]) "a").isSome ∧
    lookup2 (aggregate ["query test.a x", "insert test.b y"]) "a" "query" =
      lookup2 (aggregate ["insert test.b y", "query test.a x"]) "a" "query" :=
  aggregate_perm_invariant _ _
    (List.Perm.swap "insert test.b y" "query test.a x" []) "a" "query"

/-- C8: Aggregate of the empty sequence is the empty mapping, and in general
a collection is a key of the result exactly when some entry extracts to it
with some operation type. -/
theorem aggregate_empty_and_keys :
    aggregate [] = [] ∧
    ∀ (entries : List String) (c : String),
      ((alookup (aggregate entries) c).isSome = true ↔
        ∃ e ∈ entries, ∃ ty, extractKey e = some (c, ty)) := by
  refine ⟨rfl, ?_⟩
  intro entries c
  rw [isSome_aggregate, List.any_eq_true]
  constructor
  · rintro ⟨e, he, hm⟩
    cases hx : extractKey e with
    | none => simp [collMatches, hx] at hm
    | some p =>
      obtain ⟨p1, p2⟩ := p
      simp [collMatches, hx] at hm
      subst hm
      exact ⟨e, he, p2, hx⟩
  · rintro ⟨e, he, ty, hx⟩
    refine ⟨e, he, ?_⟩
    simp [collMatches, hx]

/-- C9: Aggregate is deterministic: two runs on the same input sequence give
the same mapping — the results are equal outright, hence compare equal as
Python dicts at every collection and operation type. -/
theorem aggregate_deterministic (entries : List String) :
    aggregate entries = aggregate entries ∧
    ∀ c t : String,
      (alookup (aggregate entries) c).isSome =
        (alookup (aggregate entries) c).isSome ∧
      lookup2 (aggregate entries) c t = lookup2 (aggregate entries) c t :=
  ⟨rfl, fun _ _ => ⟨rfl, rfl⟩⟩

/-- C5: for a positive interval, ToRates as realised by print_table computes,
for every collection of the counts dict and each of the five canonical
operation types, rate = count.get(opType, 0) / intervalSeconds (this is
`specRates`, written from the spec); in particular counts
foo: query 10, insert 5 with interval 5 yield foo: query 2, insert 1,
getmore 0, update 0, remove 0. -/
theorem toRates_matches_specRates :
    (∀ (counts : CountsDict) (i : Int), 0 < i →
      toRates counts i = PyResult.ok (specRates counts i)) ∧
    toRates [("foo", [("query", 10), ("insert", 5)])] 5 =
      PyResult.ok [("foo", [("query", 2), ("insert", 1), ("getmore", 0),
        ("update", 0), ("remove", 0)])] := by
  constructor
  · intro counts i hi
    have h0 : ((i : ℚ)) ≠ 0 := by
      have : (i : ℚ) > 0 := by exact_mod_cast hi
      exact ne_of_gt this
    unfold toRates specRates
    exact toRatesAux_ok counts _ h0
  · simp [toRates, toRatesAux, rowRates, pyDiv, getCount, alookup] <;>
      norm_num

/-- Witness for C5 at another concrete input: counts bar: update 4 with
interval 2 give exactly the five rates of the spec. -/
theorem toRates_matches_specRates_witness :
    toRates [("bar", [("update", 4)])] 2 =
      PyResult.ok (specRates [("bar", [("update", 4)])] 2) :=
  toRates_matches_specRates.1 [("bar", [("update", 4)])] 2 (by decide)

/-- C1 counterexample: print_table performs no interval validation — with
the negative interval -1 the computation does not fail at all: it divides
and succeeds, producing a negative rate, refuting the claim that a
non-positive interval fails with InvalidArgument before any division. -/
theorem toRates_negative_interval_succeeds :
    toRates [("foo", [("query", 10)])] (-1) =
      PyResult.ok [("foo", [("query", -10), ("insert", 0), ("getmore", 0),
        ("update", 0), ("remove", 0)])] := by
  simp [toRates, toRatesAux, rowRates, pyDiv, getCount, alookup] <;> norm_num

/-- C1 amended: the code validates nothing.  A negative interval succeeds
(producing rates of the wrong sign); a zero interval raises
ZeroDivisionError at the first division — so it fails only when the counts
dict is nonempty, and with ZeroDivisionError rather than InvalidArgument;
on an empty counts dict even a zero interval succeeds. -/
theorem toRates_no_interval_validation :
    (∀ (counts : CountsDict) (i : Int), i < 0 →
      isOkB (toRates counts i) = true) ∧
    (∀ counts : CountsDict, counts ≠ [] →
      toRates counts 0 = PyResult.error PyErr.zeroDivisionError) ∧
    toRates [] 0 = PyResult.ok [] := by
  refine ⟨?_, ?_, rfl⟩
  · intro counts i hi
    have h0 : ((i : ℚ)) ≠ 0 := by
      have : (i : ℚ) < 0 := by exact_mod_cast hi
      exact ne_of_lt this
    unfold toRates
    rw [toRatesAux_ok counts _ h0]
    rfl
  · intro counts hne
    cases counts with
    | nil => exact absurd rfl hne
    | cons p rest =>
      obtain ⟨c, v⟩ := p
      have hz : ((0 : Int) : ℚ) = 0 := by norm_num
      unfold toRates
      rw [hz]
      simp [toRatesAux, rowRates_zero]

/-- Witness for the amended C1: at interval -1 the concrete computation
succeeds, and at interval 0 the same nonempty counts dict raises
ZeroDivisionError. -/
theorem toRates_no_interval_validation_witness :
    isOkB (toRates [("foo", [("query", 10)])] (-1)) = true ∧
    toRates [("foo", [("query", 10)])] 0 =
      PyResult.error PyErr.zeroDivisionError :=
  ⟨toRates_no_interval_validation.1 [("foo", [("query", 10)])] (-1)
      (by decide),
   toRates_no_interval_validation.2.1 [("foo", [("query", 10)])]
      (by decide)⟩

/-- C2 counterexample: an operation type outside the canonical five is NOT
preserved in the rates output.  With counts foo: flush 3 and interval 1 the
output row for foo carries only the five canonical types, each 0, and has no
"flush" key at all — refuting the claim that rate 3/1 appears under
"flush". -/
theorem toRates_drops_unknown_type :
    toRates [("foo", [("flush", 3)])] 1 =
      PyResult.ok [("foo", [("query", 0), ("insert", 0), ("getmore", 0),
        ("update", 0), ("remove", 0)])] ∧
    alookup [("query", (0 : ℚ)), ("insert", 0), ("getmore", 0),
      ("update", 0), ("remove", 0)] "flush" = none := by
  constructor
  · simp [toRates, toRatesAux, rowRates, pyDiv, getCount, alookup] <;>
      norm_num
  · decide

/-- C2 amended: every row that ToRates emits carries exactly the five
canonical operation types as its keys, in header order — operation types
outside the canonical five are dropped from the output, not preserved. -/
theorem toRates_rows_canonical (counts : CountsDict) (i : Int)
    (out : RatesList) (p : String × List (String × ℚ))
    (h : toRates counts i = PyResult.ok out) (hp : p ∈ out) :
    p.2.map Prod.fst = canonicalTypes :=
  toRatesAux_keys ((i : ℚ)) counts out p h hp

/-- Witness for the amended C2 at the counterexample input: the single
output row keys are exactly the canonical five. -/
theorem toRates_rows_canonical_witness :
    (("foo", [("query", (0 : ℚ)), ("insert", 0), ("getmore", 0),
      ("update", 0), ("remove", 0)]) :
        String × List (String × ℚ)).2.map Prod.fst = canonicalTypes :=
  toRates_rows_canonical [("foo", [("flush", 3)])] 1
    [("foo", [("query", 0), ("insert", 0), ("getmore", 0), ("update", 0),
      ("remove", 0)])]
    ("foo", [("query", 0), ("insert", 0), ("getmore", 0), ("update", 0),
      ("remove", 0)])
    (by simp [toRates, toRatesAux, rowRates, pyDiv, getCount, alookup])
    (by simp)
